import Mathlib

/-!
Shallow embedding of the provider-adapter and cost-accounting core of the
llm-cli repository (src/models.ts, src/adapters.ts, src/types.ts).

JavaScript numbers are modelled as exact rationals (ℚ); JS truthiness of an
optional number (`undefined`/`0` are falsy) is modelled explicitly.
-/

/-- Embeds `TokenCounts` from src/types.ts: `input: number`,
`input_cache_hit?: number`, `output: number`. -/
structure TokenCounts where
  input : ℚ
  input_cache_hit : Option ℚ
  output : ℚ
deriving DecidableEq

/-- Embeds the `Model` catalog-entry type from src/models.ts. The TS field
`default?: true` is a Bool here (absent = false). Prices are per million
tokens; `input_cached` and `search_cost` are optional. -/
structure Model where
  provider : String
  key : String
  id : String
  default : Bool
  input : ℚ
  output : ℚ
  input_cached : Option ℚ
  search_cost : Option ℚ
deriving DecidableEq

/-- Embeds the `models` catalog array from src/models.ts (order matters:
preferred models go first, as the source comment explains). -/
def models : List Model := [
  { provider := "anthropic", key := "claude-sonnet-4-5", id := "sonnet-4.5",
    default := false, input := 3, output := 15,
    input_cached := some 0.30, search_cost := some 0.01 },
  { provider := "anthropic", key := "claude-haiku-4-5", id := "haiku-4.5",
    default := false, input := 1, output := 5,
    input_cached := some 0.1, search_cost := some 0.01 },
  { provider := "anthropic", key := "claude-opus-4-5", id := "opus-4.5",
    default := false, input := 5, output := 25,
    input_cached := some 0.50, search_cost := some 0.01 },
  { provider := "google", key := "gemini-3-pro-preview", id := "gemini-3-pro",
    default := false, input := 2.00, output := 12.00,
    input_cached := some 0.50, search_cost := some 0 },
  { provider := "google", key := "gemini-3-flash-preview", id := "gemini-3-flash",
    default := false, input := 0.50, output := 3.00,
    input_cached := some 0.125, search_cost := some 0 },
  { provider := "google", key := "gemini-flash-lite-latest", id := "gemini-2.5-flash-lite",
    default := false, input := 0.10, output := 0.40,
    input_cached := some 0.025, search_cost := some 0 },
  { provider := "openai", key := "gpt-5.2", id := "gpt-5.2",
    default := true, input := 1.75, output := 14,
    input_cached := some 0.175, search_cost := some 0.01 },
  { provider := "openai", key := "gpt-5.2-pro", id := "gpt-5.2-pro",
    default := false, input := 21, output := 168,
    input_cached := none, search_cost := some 0.01 },
  { provider := "openai", key := "gpt-5-mini", id := "gpt-5-mini",
    default := false, input := 0.25, output := 2.00,
    input_cached := some 0.025, search_cost := some 0.01 },
  { provider := "openai", key := "gpt-5-nano", id := "gpt-5-nano",
    default := false, input := 0.05, output := 0.40,
    input_cached := some 0.005, search_cost := some 0.01 },
  { provider := "deepseek", key := "deepseek-chat", id := "deepseek-v3.2",
    default := false, input := 0.56, output := 1.68,
    input_cached := some 0.07, search_cost := none },
  { provider := "deepseek", key := "deepseek-reasoner", id := "deepseek-v3.2-thinking",
    default := false, input := 0.56, output := 1.68,
    input_cached := some 0.07, search_cost := none },
  { provider := "groq", key := "moonshotai/kimi-k2-instruct-0905", id := "kimi-k2",
    default := false, input := 1.00, output := 3.00,
    input_cached := some 0.50, search_cost := none },
  { provider := "cerebras", key := "zai-glm-4.6", id := "glm-4.6",
    default := false, input := 2.25, output := 2.75,
    input_cached := none, search_cost := none },
  { provider := "cerebras", key := "gpt-oss-120b", id := "gpt-oss-120b",
    default := false, input := 0.35, output := 0.75,
    input_cached := none, search_cost := none }
]

/-- JS truthiness of an optional number: `undefined` and `0` are falsy. -/
def truthy (o : Option ℚ) : Bool := o.getD 0 != 0

/-- Embeds `const M = 1_000_000` from src/models.ts. -/
def M : ℚ := 1000000

/-- Embeds `getCost` from src/models.ts:

    const tokenCost = input_cached && tokens.input_cache_hit
      ? (input_cached * tokens.input_cache_hit) +
        (input * (tokens.input - tokens.input_cache_hit)) + (output * tokens.output)
      : (input * tokens.input) + (output * tokens.output)
    return tokenCost / M + (search_cost ?? 0) * searches
-/
def getCost (model : Model) (tokens : TokenCounts) (searches : ℚ) : ℚ :=
  let tokenCost :=
    if truthy model.input_cached && truthy tokens.input_cache_hit then
      model.input_cached.getD 0 * tokens.input_cache_hit.getD 0 +
        model.input * (tokens.input - tokens.input_cache_hit.getD 0) +
        model.output * tokens.output
    else
      model.input * tokens.input + model.output * tokens.output
  tokenCost / M + (model.search_cost.getD 0) * searches

/-- Contiguous-substring test on char lists (used to model JS `includes`). -/
def isSubstr (needle : List Char) : List Char → Bool
  | [] => needle.isEmpty
  | c :: t => needle.isPrefixOf (c :: t) || isSubstr needle t

/-- JS `hay.includes(needle)` substring test, on the underlying char lists. -/
def includes (hay needle : String) : Bool := isSubstr needle.data hay.data

/-- JS `toLowerCase()` modelled character by character (ASCII lowering, the
range the catalog's keys and ids use). -/
def toLowerCase (s : String) : String := String.mk (s.data.map Char.toLower)

/-- Embeds `resolveModel` from src/models.ts. A thrown `ValidationError`
is modelled as `Except.error` carrying the message; the TS non-null
assertion `!` on the default lookup is modelled as an error case (it is
unreachable because the catalog has a default entry). -/
def resolveModel (modelArg : Option String) : Except String Model :=
  match modelArg with
  | none =>
    match models.find? (fun m => m.default) with
    | some m => Except.ok m
    | none => Except.error "no default model"
  | some arg =>
    let lower := toLowerCase arg
    match (models.find? (fun m => m.key == lower || m.id == lower)).orElse
        (fun _ => models.find? (fun m => includes m.key lower || includes m.id lower)) with
    | some m => Except.ok m
    | none =>
      Except.error ("Model '" ++ arg ++ "' not found. Use the models command to list models.")

/-- Embeds `codeListMd` from src/display.ts: wrap each string in backticks
and join with comma-space. -/
def codeListMd (strs : List String) : String :=
  String.intercalate ", " (strs.map (fun s => "`" ++ s ++ "`"))

/-- Embeds the `providerTools` record from src/adapters.ts: the per-provider
tool allow-list; providers absent from the record map to `none`. -/
def providerTools : String → Option (List String)
  | "google" => some ["search", "code"]
  | "anthropic" => some ["think", "think-high", "code"]
  | "openai" => some ["search", "no-think", "think-high"]
  | _ => none

/-- Embeds `checkTools` from src/adapters.ts (only called when the provider
has an allow-list entry; the TS cast of a missing entry is modelled by
`getD []`). -/
def checkTools (provider : String) (inputTools : List String) : Except String Unit :=
  let allowedTools := (providerTools provider).getD []
  let badTools := inputTools.filter (fun t => !(allowedTools.contains t))
  if badTools.length > 0 then
    Except.error ("Invalid tools: " ++ codeListMd badTools ++ ". Valid tools for " ++
      provider ++ " models are: " ++ String.intercalate "," allowedTools)
  else Except.ok ()

/-- Embeds `parseTools` from src/adapters.ts. -/
def parseTools (provider : String) (tools : List String) : Except String (List String) :=
  if tools.length = 0 then Except.ok []
  else if (providerTools provider).isNone then
    Except.error "Tools can only be used with Google and Anthropic models"
  else
    match checkTools provider tools with
    | Except.error e => Except.error e
    | Except.ok _ => Except.ok tools

/-- Character class of the JS regex `\s` (ECMAScript WhiteSpace and
LineTerminator code points). -/
def isJsWhitespace (c : Char) : Bool :=
  c = ' ' || c = '\t' || c = '\n' || c = '\r' || c = '\x0b' || c = '\x0c' ||
  c = ' ' || c = ' ' || (0x2000 ≤ c.val && c.val ≤ 0x200a) ||
  c = ' ' || c = ' ' || c = ' ' || c = ' ' ||
  c = '　' || c = '﻿'

/-- The literal `<think>` of the think-tag regex in src/adapters.ts. -/
def openTag : List Char := "<think>".data

/-- The literal `</think>` of the think-tag regex in src/adapters.ts. -/
def closeTag : List Char := "</think>".data

/-- Matches the regex suffix `\s+(.+)` (with dotall `.`) against `t` under
greedy matching with backtracking, returning the capture of `(.+)`:
`\s+` first takes the maximal whitespace run; if nothing is left for `(.+)`
it gives one character back (still keeping at least one). -/
def tailMatch (t : List Char) : Option (List Char) :=
  let w := t.takeWhile isJsWhitespace
  let r := t.dropWhile isJsWhitespace
  if w.isEmpty then none
  else if !r.isEmpty then some r
  else if 2 ≤ w.length then some (w.drop (w.length - 1))
  else none

/-- Tries to complete the match `(.+)</think>\s+(.+)` with the capture of the
first `(.+)` ending exactly at position `j` of `s` (so it requires `1 ≤ j`,
the close tag at `j`, and `\s+(.+)` matching the rest). Returns the two
captures on success. -/
def closeSplit (s : List Char) (j : Nat) : Option (List Char × List Char) :=
  if 1 ≤ j ∧ closeTag.isPrefixOf (s.drop j) then
    match tailMatch (s.drop (j + 8)) with
    | some g3 => some (s.take j, g3)
    | none => none
  else none

/-- Greedy search for the split position of `(.+)</think>\s+(.+)`: the first
`(.+)` is greedy, so the largest feasible `j` wins; `findSplitAux s n` scans
`j = n, n-1, …, 1`. -/
def findSplitAux (s : List Char) : Nat → Option (List Char × List Char)
  | 0 => none
  | j+1 =>
    match closeSplit s (j+1) with
    | some r => some r
    | none => findSplitAux s j

/-- Matches `(.+)</think>\s+(.+)` against all of `s` starting at its head. -/
def findSplit (s : List Char) : Option (List Char × List Char) :=
  findSplitAux s s.length

/-- Matches the full pattern `(<think>)?(.+)</think>\s+(.+)` at a fixed start
position: the optional group is greedy, so consuming `<think>` is tried
first, falling back to leaving it unmatched. -/
def thinkMatchAt (s : List Char) : Option (List Char × List Char) :=
  (if openTag.isPrefixOf s then findSplit (s.drop 7) else none).orElse
    (fun _ => findSplit s)

/-- Embeds `/(<think>)?(.+)<\/think>\s+(.+)/ms.exec(content)` from
src/adapters.ts: leftmost match, scanning start positions left to right. -/
def thinkExec : List Char → Option (List Char × List Char)
  | [] =>
    match thinkMatchAt [] with
    | some r => some r
    | none => none
  | c :: t =>
    match thinkMatchAt (c :: t) with
    | some r => some r
    | none => thinkExec t

/-- The `choices[0].message` object of an OpenAI-compatible chat-completions
response, with the two fields the adapter consumes. -/
structure ChatCompletionMessage where
  content : Option String
  reasoning_content : Option String
deriving DecidableEq

/-- The reasoning/content pair the adapter normalizes a response into. -/
structure NormalizedMessage where
  reasoning : String
  content : String
deriving DecidableEq

/-- Embeds the response-normalization portion of `makeOpenAIFunc` from
src/adapters.ts: the absent-message check (`if (!message) throw`), the
`reasoning_content` field, `message.content || ""`, and the think-tag
extraction that moves inline reasoning out of the content body. -/
def openAIExtract (message : Option ChatCompletionMessage) :
    Except String NormalizedMessage :=
  match message with
  | none => Except.error "No response found"
  | some msg =>
    let reasoning := msg.reasoning_content.getD ""
    let content := msg.content.getD ""
    match thinkExec content.data with
    | some (g2, g3) =>
      Except.ok ⟨if reasoning != "" then reasoning ++ "\n\n" ++ String.mk g2
                 else String.mk g2,
                 String.mk g3⟩
    | none => Except.ok ⟨reasoning, content⟩

/-- Modelled from the spec: the BackgroundTaskManager (spec §4.5) is code of
this repository that is not present under src/; these are its task states
`queued → in_progress → \x7bcompleted | failed | cancelled | errored\x7d`. -/
inductive TaskStatus
  | queued
  | in_progress
  | completed
  | failed
  | cancelled
  | errored
deriving DecidableEq

/-- A task status that a freshly submitted background task can report
(the non-terminal states `queued` and `in_progress` of spec §4.5). -/
def TaskStatus.isInitial : TaskStatus → Bool
  | .queued => true
  | .in_progress => true
  | _ => false

/-- Modelled from the spec: the wire request `initiate` submits — the chat
request payload plus the `background=true, store=true` flags of spec §4.5. -/
structure BackgroundWireRequest where
  background : Bool
  store : Bool
  payload : String

/-- Modelled from the spec: `initiate(request)` "submits the request with a
`background=true, store=true` flag" — the flags it sets on the wire request. -/
def mkBackgroundWire (payload : String) : BackgroundWireRequest :=
  { background := true, store := true, payload := payload }

/-- Modelled from the spec: `initiate` performs exactly one submission call
against the provider endpoint (passed in as a function) and returns the
provider's `\x7bid, status\x7d` pair unchanged, without polling. -/
def initiate (submit : BackgroundWireRequest → String × TaskStatus)
    (payload : String) : String × TaskStatus :=
  submit (mkBackgroundWire payload)

/-- No occurrence of `</think>` starts after position `k` in `s` (checked over
all positions of `s`); used to pin down the greedy split of the think-tag
regex. -/
def noLaterClose (s : List Char) (k : Nat) : Bool :=
  (List.range (s.length + 1)).all
    (fun j => Nat.ble j k || !(closeTag.isPrefixOf (s.drop j)))

/-- The first catalog entry (claude-sonnet-4-5), spelled out as a concrete
instance for use in witnesses. -/
def claudeSonnet45 : Model :=
  { provider := "anthropic", key := "claude-sonnet-4-5", id := "sonnet-4.5",
    default := false, input := 3, output := 15,
    input_cached := some 0.30, search_cost := some 0.01 }

/-- The default catalog entry (gpt-5.2), spelled out as a concrete instance. -/
def gpt52 : Model :=
  { provider := "openai", key := "gpt-5.2", id := "gpt-5.2", default := true,
    input := 1.75, output := 14, input_cached := some 0.175,
    search_cost := some 0.01 }

/-! Theorems. Shared helper lemmas come first, then one theorem per claim
(with a witness where the theorem has hypotheses). -/

/-- Evaluation of `getCost` in the cache-aware branch: taken exactly when the
model has a nonzero cached price and the token count a nonzero cache hit. -/
theorem getCost_cached_eval (m : Model) (c : ℚ) (hc : m.input_cached = some c)
    (hc0 : c ≠ 0) (inp hit outp searches : ℚ) (hhit : hit ≠ 0) :
    getCost m ⟨inp, some hit, outp⟩ searches =
      (c * hit + m.input * (inp - hit) + m.output * outp) / 1000000 +
        m.search_cost.getD 0 * searches := by
  unfold getCost truthy M
  rw [hc]
  simp [hc0, hhit]

/-- C1: for every catalog entry with a cached-input price and every token
count with 0 < inputCacheHit ≤ input, getCost returns the cache-aware
formula (cached price times hits, plus input price times the cache misses,
plus output price times output, all over 1,000,000) plus the per-search
cost times the search count. -/
theorem getCost_cache_aware (m : Model) (hm : m ∈ models) (c : ℚ)
    (hc : m.input_cached = some c) (inp hit outp searches : ℚ)
    (hpos : 0 < hit) (_hle : hit ≤ inp) :
    getCost m ⟨inp, some hit, outp⟩ searches =
      (c * hit + m.input * (inp - hit) + m.output * outp) / 1000000 +
        m.search_cost.getD 0 * searches := by
  have hc0 : c ≠ 0 := by
    simp only [models] at hm
    fin_cases hm <;> simp_all <;> (intro h; subst h; norm_num at hc)
  exact getCost_cached_eval m c hc hc0 inp hit outp searches (ne_of_gt hpos)

/-- Witness for C1: the spec's representative numbers on the 3/0.30/15
(sonnet) entry give exactly 0.00834. -/
theorem getCost_cache_aware_witness :
    getCost claudeSonnet45 ⟨1000, some 800, 500⟩ 0 = 0.00834 := by
  rw [getCost_cache_aware claudeSonnet45 (List.Mem.head _) 0.30 rfl 1000 800 500 0
    (by norm_num) (by norm_num)]
  norm_num [claudeSonnet45]

/-- Nonnegativity of `getCost` for a model with nonnegative prices and a
token count with cache hits at most the input count. -/
theorem getCost_nonneg_of (m : Model) (hi : 0 ≤ m.input) (ho : 0 ≤ m.output)
    (hic : 0 ≤ m.input_cached.getD 0) (hsc : 0 ≤ m.search_cost.getD 0)
    (tokens : TokenCounts) (searches : ℚ) (h1 : 0 ≤ tokens.input)
    (h2 : 0 ≤ tokens.output) (h3 : 0 ≤ tokens.input_cache_hit.getD 0)
    (h4 : tokens.input_cache_hit.getD 0 ≤ tokens.input) (h5 : 0 ≤ searches) :
    0 ≤ getCost m tokens searches := by
  simp only [getCost]
  apply add_nonneg _ (mul_nonneg hsc h5)
  apply div_nonneg _ (by norm_num [M])
  split
  · exact add_nonneg (add_nonneg (mul_nonneg hic h3)
      (mul_nonneg hi (sub_nonneg.mpr h4))) (mul_nonneg ho h2)
  · exact add_nonneg (mul_nonneg hi h1) (mul_nonneg ho h2)

/-- C2: for every catalog model, all-zero token counts cost exactly 0 (with
the cache-hit field zero or absent), and any nonnegative token count with
inputCacheHit ≤ input and nonnegative search count has nonnegative cost. -/
theorem getCost_zero_and_nonneg (m : Model) (hm : m ∈ models) :
    (getCost m ⟨0, some 0, 0⟩ 0 = 0 ∧ getCost m ⟨0, none, 0⟩ 0 = 0) ∧
    (∀ inp outp hit searches : ℚ, 0 ≤ inp → 0 ≤ outp → 0 ≤ hit → hit ≤ inp →
      0 ≤ searches →
      0 ≤ getCost m ⟨inp, some hit, outp⟩ searches ∧
      0 ≤ getCost m ⟨inp, none, outp⟩ searches) := by
  have hprices : 0 ≤ m.input ∧ 0 ≤ m.output ∧ 0 ≤ m.input_cached.getD 0 ∧
      0 ≤ m.search_cost.getD 0 := by
    simp only [models] at hm
    fin_cases hm <;> norm_num [Option.getD]
  obtain ⟨hi, ho, hic, hsc⟩ := hprices
  refine ⟨⟨by simp [getCost, truthy, M], by simp [getCost, truthy, M]⟩, ?_⟩
  intro inp outp hit searches h1 h2 h3 h4 h5
  exact ⟨getCost_nonneg_of m hi ho hic hsc ⟨inp, some hit, outp⟩ searches h1 h2
      (by simpa using h3) (by simpa using h4) h5,
    getCost_nonneg_of m hi ho hic hsc ⟨inp, none, outp⟩ searches h1 h2
      (by simp) (by simpa using le_trans h3 h4) h5⟩

/-- Witness for C2: the sonnet entry costs 0 on all-zero tokens and has a
nonnegative cost on a sample nonnegative token count. -/
theorem getCost_zero_and_nonneg_witness :
    getCost claudeSonnet45 ⟨0, some 0, 0⟩ 0 = 0 ∧
    0 ≤ getCost claudeSonnet45 ⟨1000, some 800, 500⟩ 2 := by
  have h := getCost_zero_and_nonneg claudeSonnet45 (List.Mem.head _)
  exact ⟨h.1.1, (h.2 1000 500 800 2 (by norm_num) (by norm_num) (by norm_num)
    (by norm_num) (by norm_num)).1⟩

/-- C10: a cache-hit count of zero takes the flat branch, so it is
indistinguishable from an absent cache-hit field, and both equal the flat
formula plus search cost, for every model and token count. -/
theorem getCost_zero_hit_flat (m : Model) (inp outp searches : ℚ) :
    getCost m ⟨inp, some 0, outp⟩ searches = getCost m ⟨inp, none, outp⟩ searches ∧
    getCost m ⟨inp, none, outp⟩ searches =
      (m.input * inp + m.output * outp) / 1000000 + m.search_cost.getD 0 * searches := by
  constructor <;> simp [getCost, truthy, M]

/-- C3: exactly one catalog entry is flagged default (the gpt-5.2 entry) and
`resolveModel` with no query returns it. -/
theorem resolveModel_default :
    (models.filter (fun m => m.default)).length = 1 ∧
    resolveModel none = Except.ok gpt52 ∧
    gpt52 ∈ models ∧ gpt52.default = true := by
  refine ⟨by decide, rfl, ?_, rfl⟩
  exact List.Mem.tail _ (List.Mem.tail _ (List.Mem.tail _ (List.Mem.tail _
    (List.Mem.tail _ (List.Mem.tail _ (List.Mem.head _))))))

/-- C4: whenever the exact key/id scan (on the lower-cased query) finds an
entry, `resolveModel` returns that first exactly-matching entry, regardless
of any substring matches elsewhere in the catalog. -/
theorem resolveModel_exact_priority (q : String) (m : Model)
    (h : models.find? (fun mm => mm.key == toLowerCase q || mm.id == toLowerCase q) = some m) :
    resolveModel (some q) = Except.ok m := by
  simp only [resolveModel]
  rw [h]
  rfl

/-- Witness for C4: resolving the exact id "gpt-5.2" returns its entry. -/
theorem resolveModel_exact_priority_witness :
    resolveModel (some "gpt-5.2") = Except.ok gpt52 :=
  resolveModel_exact_priority "gpt-5.2" gpt52 rfl

/-- C6: validating an empty requested-tool list succeeds with the empty list
for every provider id, including providers absent from the allow-list table,
and raises no error. -/
theorem parseTools_empty (provider : String) :
    parseTools provider [] = Except.ok [] := rfl

/-- Counterexample for C8: a structurally valid chat-completions response
whose message is present but has an empty content string is normalized into
an ordinary response with empty content — no error is raised. -/
theorem openAIExtract_empty_body_ok :
    openAIExtract (some ⟨some "", none⟩) = Except.ok ⟨"", ""⟩ := rfl

/-- C8 (amended): in the OpenAI-compatible chat-completions adapters, an
absent message object raises the hard "No response found" error, while any
present message — including one with empty or absent content — is
normalized into an ordinary response, never an error. -/
theorem openAIExtract_absent_error_empty_ok :
    openAIExtract none = Except.error "No response found" ∧
    (∀ msg : ChatCompletionMessage, ∃ r, openAIExtract (some msg) = Except.ok r) := by
  refine ⟨rfl, fun msg => ?_⟩
  rcases hth : thinkExec (msg.content.getD "").data with _ | ⟨g2, g3⟩ <;>
    simp [openAIExtract, hth]

/-- C9: `initiate` sends the wire request with `background := true` and
`store := true`, performs exactly the one submission call, and — provided
the provider reports fresh background tasks in an initial state, as the
spec's state machine prescribes — returns a pair whose status is `queued`
or `in_progress`. -/
theorem initiate_background_queued (submit : BackgroundWireRequest → String × TaskStatus)
    (payload : String)
    (hsubmit : ∀ req, ((submit req).2).isInitial = true) :
    (mkBackgroundWire payload).background = true ∧
    (mkBackgroundWire payload).store = true ∧
    initiate submit payload = submit (mkBackgroundWire payload) ∧
    ((initiate submit payload).2 = TaskStatus.queued ∨
      (initiate submit payload).2 = TaskStatus.in_progress) := by
  refine ⟨rfl, rfl, rfl, ?_⟩
  have h := hsubmit (mkBackgroundWire payload)
  show (submit (mkBackgroundWire payload)).2 = TaskStatus.queued ∨
    (submit (mkBackgroundWire payload)).2 = TaskStatus.in_progress
  cases hstat : (submit (mkBackgroundWire payload)).2 with
  | queued => exact Or.inl rfl
  | in_progress => exact Or.inr rfl
  | completed => rw [hstat] at h; exact absurd h (by decide)
  | failed => rw [hstat] at h; exact absurd h (by decide)
  | cancelled => rw [hstat] at h; exact absurd h (by decide)
  | errored => rw [hstat] at h; exact absurd h (by decide)

/-- Witness for C9: a provider that immediately queues every submitted task. -/
theorem initiate_background_queued_witness :
    (mkBackgroundWire "hello").background = true ∧
    (mkBackgroundWire "hello").store = true ∧
    initiate (fun _ => ("task-1", TaskStatus.queued)) "hello" =
      (fun (_ : BackgroundWireRequest) => ("task-1", TaskStatus.queued))
        (mkBackgroundWire "hello") ∧
    ((initiate (fun _ => ("task-1", TaskStatus.queued)) "hello").2 = TaskStatus.queued ∨
      (initiate (fun _ => ("task-1", TaskStatus.queued)) "hello").2 = TaskStatus.in_progress) :=
  initiate_background_queued (fun _ => ("task-1", TaskStatus.queued)) "hello"
    (fun _ => rfl)

/-- A list is a Boolean prefix of itself followed by anything. -/
theorem isPrefixOf_append_self (l t : List Char) : l.isPrefixOf (l ++ t) = true := by
  rw [List.isPrefixOf_iff_prefix]
  exact List.prefix_append l t

/-- A Boolean prefix is in particular a substring. -/
theorem isSubstr_of_isPrefixOf (needle hay : List Char)
    (h : needle.isPrefixOf hay = true) : isSubstr needle hay = true := by
  cases hay with
  | nil =>
    cases needle with
    | nil => rfl
    | cons n ns => simp [List.isPrefixOf] at h
  | cons c t => simp [isSubstr, h]

/-- A needle occurs in any list that sandwiches it. -/
theorem isSubstr_sandwich (needle pre suf : List Char) :
    isSubstr needle (pre ++ (needle ++ suf)) = true := by
  induction pre with
  | nil => simpa using isSubstr_of_isPrefixOf _ _ (isPrefixOf_append_self needle suf)
  | cons c pre ih => simp [isSubstr, ih]

/-- C5: a query whose lower-casing matches no catalog entry's key or id,
exactly or as a substring, makes `resolveModel` produce the model-not-found
error, whose message contains the original query text — no model is
returned. -/
theorem resolveModel_not_found (q : String)
    (h : models.all (fun m => !(m.key == toLowerCase q) && !(m.id == toLowerCase q) &&
      !(includes m.key (toLowerCase q)) && !(includes m.id (toLowerCase q))) = true) :
    ∃ msg, resolveModel (some q) = Except.error msg ∧ includes msg q = true := by
  have h' := List.all_eq_true.mp h
  have h1 : models.find? (fun m => m.key == toLowerCase q || m.id == toLowerCase q)
      = none := by
    rw [List.find?_eq_none]
    intro m hm
    have hp := h' m hm
    simp only [Bool.and_eq_true, Bool.not_eq_true'] at hp
    simp [hp.1.1.1, hp.1.1.2]
  have h2 : models.find? (fun m => includes m.key (toLowerCase q) ||
      includes m.id (toLowerCase q)) = none := by
    rw [List.find?_eq_none]
    intro m hm
    have hp := h' m hm
    simp only [Bool.and_eq_true, Bool.not_eq_true'] at hp
    simp [hp.1.2, hp.2]
  refine ⟨"Model '" ++ q ++ "' not found. Use the models command to list models.",
    ?_, ?_⟩
  · simp [resolveModel, h1, h2, Option.orElse]
  · show isSubstr q.data
      (("Model '" ++ q ++ "' not found. Use the models command to list models.").data)
      = true
    rw [String.data_append, String.data_append, List.append_assoc]
    exact isSubstr_sandwich q.data "Model '".data
      "' not found. Use the models command to list models.".data

/-- Witness for C5: the query "qz" matches nothing in the catalog. -/
theorem resolveModel_not_found_witness :
    ∃ msg, resolveModel (some "qz") = Except.error msg ∧ includes msg "qz" = true :=
  resolveModel_not_found "qz" (by decide)

/-- takeWhile/dropWhile split of a satisfying block followed by a
non-satisfying head. -/
theorem takeWhile_all_append (p : Char → Bool) (W A : List Char)
    (hWall : ∀ c ∈ W, p c = true) (hA : ∀ a ∈ A.head?, p a = false) :
    (W ++ A).takeWhile p = W ∧ (W ++ A).dropWhile p = A := by
  induction W with
  | nil =>
    cases A with
    | nil => exact ⟨rfl, rfl⟩
    | cons a t =>
      have ha := hA a rfl
      simp [List.takeWhile, List.dropWhile, ha]
  | cons c W ih =>
    have hc : p c = true := hWall c (List.mem_cons_self c W)
    have ih' := ih (fun x hx => hWall x (List.mem_cons_of_mem c hx))
    simp [List.takeWhile, List.dropWhile, hc, ih'.1, ih'.2]

/-- The suffix pattern `\s+(.+)` matched against a nonempty whitespace run followed by a
nonempty remainder with non-whitespace head captures the remainder. -/
theorem tailMatch_ws_append (W A : List Char) (hW : W ≠ []) (hA : A ≠ [])
    (hWall : W.all isJsWhitespace = true)
    (hAhead : A.head?.all (fun a => !(isJsWhitespace a)) = true) :
    tailMatch (W ++ A) = some A := by
  have hWall' := List.all_eq_true.mp hWall
  have hAhead' : ∀ a ∈ A.head?, isJsWhitespace a = false := by
    cases A with
    | nil => intro a h; cases h
    | cons a t =>
      intro x hx
      cases hx
      simpa using hAhead
  obtain ⟨ht, hd⟩ := takeWhile_all_append isJsWhitespace W A hWall' hAhead'
  obtain ⟨w0, W', rfl⟩ := List.exists_cons_of_ne_nil hW
  obtain ⟨a0, A', rfl⟩ := List.exists_cons_of_ne_nil hA
  simp only [tailMatch, ht, hd]
  simp [List.isEmpty]

/-- The split attempt `closeSplit` fails strictly above `k` when `noLaterClose s k` holds. -/
theorem closeSplit_none_of_noLater (s : List Char) (k : Nat)
    (h : noLaterClose s k = true) :
    ∀ j, k < j → j ≤ s.length → closeSplit s j = none := by
  intro j hj1 hj2
  have hmem : j ∈ List.range (s.length + 1) := List.mem_range.mpr (by omega)
  unfold noLaterClose at h
  have hp := List.all_eq_true.mp h j hmem
  simp only [Bool.or_eq_true, Bool.not_eq_true'] at hp
  rcases hp with hp | hp
  · rw [Nat.ble_eq] at hp
    omega
  · simp [closeSplit, hp]

/-- The greedy scan returns the split at `k` when `k` succeeds and
everything above it fails. -/
theorem findSplitAux_eq_of (s : List Char) (k : Nat) (g2 g3 : List Char)
    (hk : closeSplit s k = some (g2, g3)) :
    ∀ n, k ≤ n → (∀ j, k < j → j ≤ n → closeSplit s j = none) →
      findSplitAux s n = some (g2, g3) := by
  intro n
  induction n with
  | zero =>
    intro hk0 _
    have hz : closeSplit s 0 = none := by simp [closeSplit]
    rw [Nat.le_zero.mp hk0] at hk
    rw [hz] at hk
    cases hk
  | succ n ih =>
    intro hkn hnone
    by_cases heq : k = n + 1
    · subst heq
      unfold findSplitAux
      rw [hk]
    · have hz : closeSplit s (n + 1) = none := hnone (n + 1) (by omega) (le_refl _)
      unfold findSplitAux
      rw [hz]
      exact ih (by omega) (fun j hj1 hj2 => hnone j hj1 (by omega))

/-- The split attempt `closeSplit` succeeds at the end of `R` in `R ++ </think> ++ W ++ A`. -/
theorem closeSplit_at (R W A : List Char) (hR : R ≠ [])
    (htail : tailMatch (W ++ A) = some A) :
    closeSplit (R ++ (closeTag ++ (W ++ A))) R.length = some (R, A) := by
  have hdrop1 : (R ++ (closeTag ++ (W ++ A))).drop R.length = closeTag ++ (W ++ A) :=
    List.drop_left R _
  have hdrop2 : (R ++ (closeTag ++ (W ++ A))).drop (R.length + 8) = W ++ A := by
    rw [show R ++ (closeTag ++ (W ++ A)) = (R ++ closeTag) ++ (W ++ A) from
      (List.append_assoc R closeTag (W ++ A)).symm]
    exact List.drop_left' (by rw [List.length_append, show closeTag.length = 8 from rfl])
  have htake : (R ++ (closeTag ++ (W ++ A))).take R.length = R := List.take_left R _
  unfold closeSplit
  rw [if_pos ⟨List.length_pos.mpr hR,
    by rw [hdrop1]; exact isPrefixOf_append_self _ _⟩]
  rw [hdrop2, htail, htake]

/-- The greedy `(.+)</think>\s+(.+)` match of the whole string splits at the
end of `R` when no close tag occurs later. -/
theorem findSplit_eq (R W A : List Char) (hR : R ≠ [])
    (htail : tailMatch (W ++ A) = some A)
    (hno : noLaterClose (R ++ (closeTag ++ (W ++ A))) R.length = true) :
    findSplit (R ++ (closeTag ++ (W ++ A))) = some (R, A) := by
  unfold findSplit
  apply findSplitAux_eq_of _ R.length _ _ (closeSplit_at R W A hR htail)
  · rw [List.length_append]
    omega
  · exact closeSplit_none_of_noLater _ _ hno

/-- Matching at a start that does not carry the opening tag falls through to
the tagless alternative. -/
theorem thinkMatchAt_no_open (s : List Char)
    (hopen : openTag.isPrefixOf s = false) (r : List Char × List Char)
    (hf : findSplit s = some r) : thinkMatchAt s = some r := by
  unfold thinkMatchAt
  rw [hopen]
  simp [hf, Option.orElse]

/-- Matching at a start that carries the opening tag consumes it. -/
theorem thinkMatchAt_open (s : List Char) (r : List Char × List Char)
    (hf : findSplit s = some r) : thinkMatchAt (openTag ++ s) = some r := by
  unfold thinkMatchAt
  rw [isPrefixOf_append_self, if_pos rfl,
    List.drop_left' (show openTag.length = 7 from rfl), hf]
  rfl

/-- A successful match at position 0 is what `exec` returns. -/
theorem thinkExec_of_matchAt (s : List Char) (r : List Char × List Char)
    (h : thinkMatchAt s = some r) : thinkExec s = some r := by
  cases s with
  | nil => simp only [thinkExec]; rw [h]
  | cons c t => simp only [thinkExec]; rw [h]

/-- C7: for the OpenAI-compatible chat-completions adapters, a message body
of the form `<think>` ++ R ++ `</think>` ++ whitespace ++ A (with R and A
nonempty, A not starting with whitespace, and no later occurrence of the
close tag) is normalized to reasoning R and content A, and the identical
body with the opening `<think>` tag absent is normalized the same way. -/
theorem openAI_think_extraction (R W A : List Char)
    (hR : R ≠ []) (hA : A ≠ []) (hW : W ≠ [])
    (hWall : W.all isJsWhitespace = true)
    (hAhead : A.head?.all (fun a => !(isJsWhitespace a)) = true)
    (hno : noLaterClose (R ++ (closeTag ++ (W ++ A))) R.length = true)
    (hopen : openTag.isPrefixOf (R ++ (closeTag ++ (W ++ A))) = false) :
    openAIExtract (some ⟨some (String.mk (openTag ++ (R ++ (closeTag ++ (W ++ A))))),
        none⟩) = Except.ok ⟨String.mk R, String.mk A⟩ ∧
    openAIExtract (some ⟨some (String.mk (R ++ (closeTag ++ (W ++ A)))), none⟩) =
      Except.ok ⟨String.mk R, String.mk A⟩ := by
  have htail := tailMatch_ws_append W A hW hA hWall hAhead
  have hf := findSplit_eq R W A hR htail hno
  constructor
  · have hm := thinkMatchAt_open _ _ hf
    have he := thinkExec_of_matchAt _ _ hm
    simp [openAIExtract, he]
  · have hm := thinkMatchAt_no_open _ hopen _ hf
    have he := thinkExec_of_matchAt _ _ hm
    simp [openAIExtract, he]

/-- Witness for C7: the spec's example, with and without the opening tag. -/
theorem openAI_think_extraction_witness :
    openAIExtract (some ⟨some "<think>reasoning</think>\nfinal answer", none⟩) =
      Except.ok ⟨"reasoning", "final answer"⟩ ∧
    openAIExtract (some ⟨some "reasoning</think>\nfinal answer", none⟩) =
      Except.ok ⟨"reasoning", "final answer"⟩ :=
  openAI_think_extraction "reasoning".data ['\n'] "final answer".data
    (by decide) (by decide) (by decide) (by decide) (by decide) (by decide) (by decide)
